import Mathlib

/-!
Shallow embedding of `modelo_dbo_app.py`: a two-reservoir DBO (biochemical
oxygen demand) mass-balance model integrated with a fixed-step classical
Runge-Kutta-4 scheme.  Machine floating-point arithmetic is idealised as
exact rational arithmetic (`ℚ`); the structure of every computation follows
the Python source line by line.
-/

/-- The parameters of the model.  In the source these are module-level constants
(`V1`, `V2`, `D1B`, `D12`, `k1`, `k2`, `Tmax`, `dt`) together with the two
slider inputs `L_input`, `CB` and the fixed discharge duration
`t_descarga`. -/
structure Params where
  V1 : ℚ
  V2 : ℚ
  D1B : ℚ
  D12 : ℚ
  k1 : ℚ
  k2 : ℚ
  CB : ℚ
  L_input : ℚ
  t_descarga : ℚ
  Tmax : ℚ
  dt : ℚ
deriving DecidableEq, Repr

/-- One trajectory sample `(t, C1, C2)`: an entry of the parallel lists
`t_list`, `C1_list`, `C2_list` of the source. -/
structure Sample where
  t : ℚ
  C1 : ℚ
  C2 : ℚ
deriving DecidableEq, Repr

/-- Function `derivadas(C1, C2, t)` from the source:
`L = L_input if t < t_descarga else 0.0`, then
`dC1_dt = (1/V1)*(D1B*(CB - C1) + D12*(C2 - C1) + L) - k1*C1` and
`dC2_dt = (1/V2)*(D12*(C1 - C2)) - k2*C2`. -/
def derivadas (p : Params) (C1 C2 t : ℚ) : ℚ × ℚ :=
  let L : ℚ := if t < p.t_descarga then p.L_input else 0
  ((1 / p.V1) * (p.D1B * (p.CB - C1) + p.D12 * (C2 - C1) + L) - p.k1 * C1,
   (1 / p.V2) * (p.D12 * (C1 - C2)) - p.k2 * C2)

/-- The body of the RK4 loop of the source acting on the concentrations: the four
stage evaluations `k1_i, k2_i = derivadas(...)` followed by the update
`C += (dt/6)*(k_1 + 2*k_2 + 2*k_3 + k_4)`. -/
def rk4Step (p : Params) (C1 C2 t : ℚ) : ℚ × ℚ :=
  let ka := derivadas p C1 C2 t
  let kb := derivadas p (C1 + p.dt * ka.1 / 2) (C2 + p.dt * ka.2 / 2) (t + p.dt / 2)
  let kc := derivadas p (C1 + p.dt * kb.1 / 2) (C2 + p.dt * kb.2 / 2) (t + p.dt / 2)
  let kd := derivadas p (C1 + p.dt * kc.1) (C2 + p.dt * kc.2) (t + p.dt)
  (C1 + (p.dt / 6) * (ka.1 + 2 * kb.1 + 2 * kc.1 + kd.1),
   C2 + (p.dt / 6) * (ka.2 + 2 * kb.2 + 2 * kc.2 + kd.2))

/-- One full loop iteration as a map on samples: the state update by
`rk4Step` together with `t += dt`. -/
def stepSample (p : Params) (s : Sample) : Sample :=
  ⟨s.t + p.dt, (rk4Step p s.C1 s.C2 s.t).1, (rk4Step p s.C1 s.C2 s.t).2⟩

/-- The trajectory built by running the loop body `n` times starting from
sample `s`, with `s` itself (the pre-loop contents of the lists) in front. -/
def integrateAux (p : Params) : ℕ → Sample → List Sample
  | 0, s => [s]
  | n + 1, s => s :: integrateAux p n (stepSample p s)

/-- The Python `int()` builtin applied to an exact rational: truncation toward zero. -/
def pyInt (q : ℚ) : ℤ :=
  if 0 ≤ q then ⌊q⌋ else ⌈q⌉

/-- Loop count `N = int(Tmax / dt)` from the source. -/
def nSteps (p : Params) : ℤ :=
  pyInt (p.Tmax / p.dt)

/-- The full run: `for i in range(N)` iterations of the RK4 loop starting
from the initial sample `(0, C1, C2)`; `range(N)` of a non-positive `N`
performs zero iterations, which `Int.toNat` captures. -/
def integrate (p : Params) (C1 C2 : ℚ) : List Sample :=
  integrateAux p (nSteps p).toNat ⟨0, C1, C2⟩

/-- The run including the Python behaviour at `dt = 0`: computing
`N = int(Tmax / dt)` raises `ZeroDivisionError` before any integration. -/
def integrateChecked (p : Params) (C1 C2 : ℚ) : Except String (List Sample) :=
  if p.dt = 0 then Except.error "ZeroDivisionError"
  else Except.ok (integrate p C1 C2)

namespace Fixed

/-- Source constant `A1B = 25` (m²). -/
def A1B : ℚ := 25

/-- Source constant `L1B = 80` (m). -/
def L1B : ℚ := 80

/-- Source constant `E1B = 0.6` (m²/s). -/
def E1B : ℚ := 0.6

/-- Source constant `D1B = E1B * A1B / L1B * 86400` (m³/day). -/
def D1B : ℚ := E1B * A1B / L1B * 86400

/-- Source constant `A12 = 18`. -/
def A12 : ℚ := 18

/-- Source constant `L12 = 120`. -/
def L12 : ℚ := 120

/-- Source constant `E12 = 0.4`. -/
def E12 : ℚ := 0.4

/-- Source constant `D12 = E12 * A12 / L12 * 86400`. -/
def D12 : ℚ := E12 * A12 / L12 * 86400

end Fixed

/-- The parameter set of the source with the default slider values:
`V1 = 1e5`, `V2 = 2e5`, the derived conductances, `k1 = 0.2`, `k2 = 0.1`,
`CB = 1.0`, `L_input = 1_000_000`, `t_descarga = 1.0`, `Tmax = 30`,
`dt = 0.1`. -/
def pRef : Params :=
  ⟨1e5, 2e5, Fixed.D1B, Fixed.D12, 0.2, 0.1, 1, 1000000, 1, 30, 0.1⟩

/-- A short run (one step) with zero source and zero boundary, used to
instantiate general theorems on a concrete input. -/
def pSmall : Params :=
  ⟨1e5, 2e5, Fixed.D1B, Fixed.D12, 0.2, 0.1, 0, 0, 1, 0.1, 0.1⟩

/-- The mass-conservation parameter set: no decay, no boundary exchange,
zero source, internal exchange only. -/
def pMass : Params :=
  ⟨1e5, 2e5, 0, Fixed.D12, 0, 0, 1, 0, 1, 30, 0.1⟩

/-- A configuration with non-positive `Tmax`, for the validation claim. -/
def pInvalid : Params :=
  ⟨1e5, 2e5, Fixed.D1B, Fixed.D12, 0.2, 0.1, 1, 1000000, 1, -30, 0.1⟩

theorem integrateAux_length (p : Params) :
    ∀ (n : ℕ) (s : Sample), (integrateAux p n s).length = n + 1 := by
  intro n
  induction n with
  | zero => intro s; rfl
  | succ n ih => intro s; simp [integrateAux, ih]

theorem integrateAux_get (p : Params) :
    ∀ (n i : ℕ) (s : Sample) (h : i < (integrateAux p n s).length),
      (integrateAux p n s).get ⟨i, h⟩ = (stepSample p)^[i] s := by
  intro n
  induction n with
  | zero =>
      intro i s h
      simp [integrateAux] at h
      subst h
      rfl
  | succ n ih =>
      intro i s h
      cases i with
      | zero => rfl
      | succ j =>
          have hj : j < (integrateAux p n (stepSample p s)).length := by
            simpa [integrateAux] using h
          have := ih j (stepSample p s) hj
          simpa [integrateAux, Function.iterate_succ_apply] using this

theorem integrateAux_head (p : Params) (n : ℕ) (s : Sample) :
    (integrateAux p n s).head? = some s := by
  cases n <;> rfl

theorem integrateAux_invariant (p : Params) (Q : Sample → Prop)
    (hstep : ∀ s, Q s → Q (stepSample p s)) :
    ∀ (n : ℕ) (s : Sample), Q s → ∀ u ∈ integrateAux p n s, Q u := by
  intro n
  induction n with
  | zero =>
      intro s hs u hu
      simp [integrateAux] at hu
      subst hu; exact hs
  | succ n ih =>
      intro s hs u hu
      simp only [integrateAux, List.mem_cons] at hu
      rcases hu with rfl | hu
      · exact hs
      · exact ih (stepSample p s) (hstep s hs) u hu

theorem stepSample_iterate_t (p : Params) (s : Sample) :
    ∀ i : ℕ, ((stepSample p)^[i] s).t = s.t + (i : ℚ) * p.dt := by
  intro i
  induction i with
  | zero => simp
  | succ i ih =>
      rw [Function.iterate_succ_apply']
      show ((stepSample p)^[i] s).t + p.dt = _
      rw [ih]
      push_cast
      ring

theorem pyInt_natCast (n : ℕ) : pyInt ((n : ℚ)) = (n : ℤ) := by
  simp [pyInt, Int.floor_natCast]

/-- C1: For every state `(C1, C2)` and time `t`, `derivadas` returns
exactly `dC1/dt = (1/V1)·(D1B·(CB − C1) + D12·(C2 − C1) + L(t)) − k1·C1`
and `dC2/dt = (1/V2)·(D12·(C1 − C2)) − k2·C2`, with `L(t)` the time-gated
source term. -/
theorem derivadas_spec (p : Params) (c1 c2 t : ℚ) :
    derivadas p c1 c2 t =
      ((1 / p.V1) * (p.D1B * (p.CB - c1) + p.D12 * (c2 - c1) +
          (if t < p.t_descarga then p.L_input else 0)) - p.k1 * c1,
       (1 / p.V2) * (p.D12 * (c1 - c2)) - p.k2 * c2) := rfl

/-- C2: Each integration step computes the four classical RK4 stages
`k_a = Model(C1, C2, t)`, `k_b` and `k_c` at the half-step probe states and
time `t + h/2`, `k_d` at the full-step probe state and time `t + h`, and
updates each concentration by `(h/6)·(k_a + 2k_b + 2k_c + k_d)` and the
time by `h`. -/
theorem rk4Step_spec (p : Params) (c1 c2 t : ℚ) :
    (let h := p.dt
     let ka := derivadas p c1 c2 t
     let kb := derivadas p (c1 + h / 2 * ka.1) (c2 + h / 2 * ka.2) (t + h / 2)
     let kc := derivadas p (c1 + h / 2 * kb.1) (c2 + h / 2 * kb.2) (t + h / 2)
     let kd := derivadas p (c1 + h * kc.1) (c2 + h * kc.2) (t + h)
     rk4Step p c1 c2 t =
       (c1 + (h / 6) * (ka.1 + 2 * kb.1 + 2 * kc.1 + kd.1),
        c2 + (h / 6) * (ka.2 + 2 * kb.2 + 2 * kc.2 + kd.2))) ∧
    ∀ s : Sample, stepSample p s =
      ⟨s.t + p.dt, (rk4Step p s.C1 s.C2 s.t).1, (rk4Step p s.C1 s.C2 s.t).2⟩ := by
  constructor
  · show rk4Step p c1 c2 t = _
    simp only [rk4Step, derivadas, Prod.mk.injEq]
    constructor <;> ring
  · intro s; rfl

/-- C3: The source term is a hard cutoff: for `t < t_descarga` the
contribution to `dC1/dt` is exactly `L_input/V1`, and for `t ≥ t_descarga`
it is exactly `0`. -/
theorem source_cutoff (p : Params) (c1 c2 t : ℚ) :
    (t < p.t_descarga →
      (derivadas p c1 c2 t).1 =
        ((1 / p.V1) * (p.D1B * (p.CB - c1) + p.D12 * (c2 - c1)) - p.k1 * c1)
          + p.L_input / p.V1) ∧
    (p.t_descarga ≤ t →
      (derivadas p c1 c2 t).1 =
        (1 / p.V1) * (p.D1B * (p.CB - c1) + p.D12 * (c2 - c1)) - p.k1 * c1) := by
  constructor
  · intro ht
    simp only [derivadas, if_pos ht]
    ring
  · intro ht
    simp only [derivadas, if_neg (not_lt.mpr ht)]
    ring

/-- Witness for C3 at the default parameters of the source: at `t = 0 < 1` the
source contributes `L_input/V1`; at `t = 5 ≥ 1` it contributes nothing. -/
theorem source_cutoff_witness :
    (derivadas pRef 2 3 0).1 =
      ((1 / pRef.V1) * (pRef.D1B * (pRef.CB - 2) + pRef.D12 * (3 - 2)) - pRef.k1 * 2)
        + pRef.L_input / pRef.V1 ∧
    (derivadas pRef 2 3 5).1 =
      (1 / pRef.V1) * (pRef.D1B * (pRef.CB - 2) + pRef.D12 * (3 - 2)) - pRef.k1 * 2 :=
  ⟨(source_cutoff pRef 2 3 0).1 (by norm_num [pRef]),
   (source_cutoff pRef 2 3 5).2 (by norm_num [pRef])⟩

/-- C9: The `dC2/dt` component depends only on `(C1, C2)` (and the fixed
`V2`, `D12`, `k2`): calls with the same `(C1, C2)` but different `t`,
`L_input` or `CB` return the same `dC2/dt`. -/
theorem dC2_independent_of_source (V1 V2 D1B D12 k1 k2 CB CB2 L L2 td Tm h c1 c2 t t2 : ℚ) :
    (derivadas ⟨V1, V2, D1B, D12, k1, k2, CB, L, td, Tm, h⟩ c1 c2 t).2 =
    (derivadas ⟨V1, V2, D1B, D12, k1, k2, CB2, L2, td, Tm, h⟩ c1 c2 t2).2 := rfl

/-- C10: The conductances are `D = E·A/L·86400`, giving exactly
`D1B = 0.6·25/80·86400 = 16200` and `D12 = 0.4·18/120·86400 = 5184`. -/
theorem conductance_values :
    Fixed.D1B = Fixed.E1B * Fixed.A1B / Fixed.L1B * 86400 ∧
    Fixed.D12 = Fixed.E12 * Fixed.A12 / Fixed.L12 * 86400 ∧
    Fixed.D1B = 16200 ∧ Fixed.D12 = 5184 := by
  refine ⟨rfl, rfl, ?_, ?_⟩ <;>
    norm_num [Fixed.D1B, Fixed.D12, Fixed.E1B, Fixed.A1B, Fixed.L1B,
      Fixed.E12, Fixed.A12, Fixed.L12]

theorem nSteps_toNat (p : Params) (n : ℕ) (hn : p.Tmax / p.dt = (n : ℚ)) :
    (nSteps p).toNat = n := by
  simp [nSteps, hn, pyInt_natCast]

theorem integrate_get (p : Params) (c1 c2 : ℚ) (i : ℕ)
    (h : i < (integrate p c1 c2).length) :
    (integrate p c1 c2).get ⟨i, h⟩ = (stepSample p)^[i] ⟨0, c1, c2⟩ :=
  integrateAux_get p (nSteps p).toNat i ⟨0, c1, c2⟩ h

theorem integrate_get_t (p : Params) (c1 c2 : ℚ) (i : ℕ)
    (h : i < (integrate p c1 c2).length) :
    ((integrate p c1 c2).get ⟨i, h⟩).t = (i : ℚ) * p.dt := by
  rw [integrate_get, stepSample_iterate_t]
  norm_num

/-- C4: The trajectory has exactly `N + 1` samples where `N = Tmax/dt`,
its first sample is the initial condition at `t = 0`, the `i`-th sample has
time `i·dt`, and the times are strictly increasing; in particular with
`Tmax = 30`, `dt = 0.1` and zero initial state it has `301` samples whose
first is `(0, 0, 0)` and whose times are `0, 0.1, …, 30`. -/
theorem trajectory_shape (p : Params) (c1 c2 : ℚ) (n : ℕ)
    (hn : p.Tmax / p.dt = (n : ℚ)) (hdt : 0 < p.dt) :
    (integrate p c1 c2).length = n + 1 ∧
    (integrate p c1 c2).head? = some ⟨0, c1, c2⟩ ∧
    (∀ (i : ℕ) (h : i < (integrate p c1 c2).length),
      ((integrate p c1 c2).get ⟨i, h⟩).t = (i : ℚ) * p.dt) ∧
    ∀ (i j : ℕ) (hi : i < (integrate p c1 c2).length)
      (hj : j < (integrate p c1 c2).length), i < j →
      ((integrate p c1 c2).get ⟨i, hi⟩).t < ((integrate p c1 c2).get ⟨j, hj⟩).t := by
  refine ⟨?_, integrateAux_head p _ _, integrate_get_t p c1 c2, ?_⟩
  · show (integrateAux p (nSteps p).toNat ⟨0, c1, c2⟩).length = n + 1
    rw [integrateAux_length, nSteps_toNat p n hn]
  · intro i j hi hj hij
    rw [integrate_get_t p c1 c2 i hi, integrate_get_t p c1 c2 j hj]
    exact mul_lt_mul_of_pos_right (by exact_mod_cast hij) hdt

/-- Witness for C4: the run of the source (`Tmax = 30`, `dt = 0.1`, zero initial
state) has `301` samples and starts at `(0, 0, 0)`. -/
theorem trajectory_shape_witness :
    (integrate pRef 0 0).length = 300 + 1 ∧
    (integrate pRef 0 0).head? = some ⟨0, 0, 0⟩ := by
  have h := trajectory_shape pRef 0 0 300 (by norm_num [pRef]) (by norm_num [pRef])
  exact ⟨h.1, h.2.1⟩

theorem pyInt_nonpos (q : ℚ) (hq : q ≤ 0) : pyInt q ≤ 0 := by
  unfold pyInt
  split
  · have h1 : ((⌊q⌋ : ℤ) : ℚ) ≤ 0 := le_trans (Int.floor_le q) hq
    exact_mod_cast h1
  · exact Int.ceil_le.mpr (by exact_mod_cast hq)

/-- C5 (amended): The code performs no configuration validation: with
`dt = 0` it fails with a `ZeroDivisionError` while computing `N`; with
`dt ≠ 0` and `Tmax/dt ≤ 0` (in particular `Tmax ≤ 0 < dt`) the loop count
`N = int(Tmax/dt)` is non-positive, the loop runs zero times, and the
operation returns the length-1 trajectory holding only the initial sample —
it neither raises an `InvalidConfiguration` error nor loops forever. -/
theorem no_validation (p : Params) (c1 c2 : ℚ) :
    (p.dt = 0 → integrateChecked p c1 c2 = Except.error "ZeroDivisionError") ∧
    (p.dt ≠ 0 → p.Tmax / p.dt ≤ 0 →
      integrateChecked p c1 c2 = Except.ok [⟨0, c1, c2⟩]) := by
  constructor
  · intro h
    simp [integrateChecked, h]
  · intro h hq
    have h0 : (nSteps p).toNat = 0 := Int.toNat_of_nonpos (pyInt_nonpos _ hq)
    simp [integrateChecked, h, integrate, h0, integrateAux]

/-- C5 counterexample: At `Tmax = -30 ≤ 0` (and the fixed `dt = 0.1` of the source)
the operation does not fail: it returns `ok` with the length-1 trajectory
`[(0, 0, 0)]`. -/
theorem no_validation_counterexample :
    pInvalid.Tmax ≤ 0 ∧
    integrateChecked pInvalid 0 0 = Except.ok [⟨0, 0, 0⟩] := by
  refine ⟨by norm_num [pInvalid], ?_⟩
  have hdt : pInvalid.dt ≠ 0 := by norm_num [pInvalid]
  have harg : pInvalid.Tmax / pInvalid.dt = ((-300 : ℤ) : ℚ) := by
    norm_num [pInvalid]
  have hN : nSteps pInvalid = -300 := by
    rw [nSteps, harg, pyInt, if_neg (by norm_num)]
    exact Int.ceil_intCast _
  have h0 : (nSteps pInvalid).toNat = 0 := by rw [hN]; rfl
  simp [integrateChecked, hdt, integrate, h0, integrateAux]

/-- A configuration with `dt = 0`, hitting the `ZeroDivisionError` branch. -/
def pZeroDt : Params :=
  ⟨1e5, 2e5, Fixed.D1B, Fixed.D12, 0.2, 0.1, 1, 1000000, 1, 30, 0⟩

/-- Witness for the amended C5: both branches instantiated concretely. -/
theorem no_validation_witness :
    integrateChecked pZeroDt 0 0 = Except.error "ZeroDivisionError" ∧
    integrateChecked pInvalid 0 0 = Except.ok [⟨0, 0, 0⟩] :=
  ⟨(no_validation pZeroDt 0 0).1 rfl,
   (no_validation pInvalid 0 0).2 (by norm_num [pInvalid]) (by norm_num [pInvalid])⟩

theorem derivadas_mass (p : Params) (hV1 : p.V1 ≠ 0) (hV2 : p.V2 ≠ 0)
    (hk1 : p.k1 = 0) (hk2 : p.k2 = 0) (hD : p.D1B = 0) (hL : p.L_input = 0)
    (a b t : ℚ) :
    p.V1 * (derivadas p a b t).1 + p.V2 * (derivadas p a b t).2 = 0 := by
  simp only [derivadas, hk1, hk2, hD, hL, ite_self]
  field_simp
  ring

theorem rk4Step_mass (p : Params) (hV1 : p.V1 ≠ 0) (hV2 : p.V2 ≠ 0)
    (hk1 : p.k1 = 0) (hk2 : p.k2 = 0) (hD : p.D1B = 0) (hL : p.L_input = 0)
    (c1 c2 t : ℚ) :
    p.V1 * (rk4Step p c1 c2 t).1 + p.V2 * (rk4Step p c1 c2 t).2 =
      p.V1 * c1 + p.V2 * c2 := by
  have hd := derivadas_mass p hV1 hV2 hk1 hk2 hD hL
  simp only [rk4Step]
  set ka := derivadas p c1 c2 t with hka
  set kb := derivadas p (c1 + p.dt * ka.1 / 2) (c2 + p.dt * ka.2 / 2) (t + p.dt / 2) with hkb
  set kc := derivadas p (c1 + p.dt * kb.1 / 2) (c2 + p.dt * kb.2 / 2) (t + p.dt / 2) with hkc
  set kd := derivadas p (c1 + p.dt * kc.1) (c2 + p.dt * kc.2) (t + p.dt) with hkd
  have h1 : p.V1 * ka.1 + p.V2 * ka.2 = 0 := by rw [hka]; exact hd _ _ _
  have h2 : p.V1 * kb.1 + p.V2 * kb.2 = 0 := by rw [hkb]; exact hd _ _ _
  have h3 : p.V1 * kc.1 + p.V2 * kc.2 = 0 := by rw [hkc]; exact hd _ _ _
  have h4 : p.V1 * kd.1 + p.V2 * kd.2 = 0 := by rw [hkd]; exact hd _ _ _
  linear_combination (p.dt / 6) * h1 + (p.dt / 3) * h2 + (p.dt / 3) * h3 + (p.dt / 6) * h4

/-- C6: With `k1 = k2 = 0`, `D1B = 0`, `L_input = 0` (and nonzero
volumes), every RK4 step preserves `V1·C1 + V2·C2` exactly, and hence the
quantity is constant along the whole trajectory. -/
theorem mass_conservation (p : Params) (hV1 : p.V1 ≠ 0) (hV2 : p.V2 ≠ 0)
    (hk1 : p.k1 = 0) (hk2 : p.k2 = 0) (hD : p.D1B = 0) (hL : p.L_input = 0)
    (c1 c2 : ℚ) :
    (∀ (a b t : ℚ), p.V1 * (rk4Step p a b t).1 + p.V2 * (rk4Step p a b t).2 =
      p.V1 * a + p.V2 * b) ∧
    ∀ s ∈ integrate p c1 c2, p.V1 * s.C1 + p.V2 * s.C2 = p.V1 * c1 + p.V2 * c2 := by
  have hstep := rk4Step_mass p hV1 hV2 hk1 hk2 hD hL
  refine ⟨hstep, ?_⟩
  exact integrateAux_invariant p
    (fun s => p.V1 * s.C1 + p.V2 * s.C2 = p.V1 * c1 + p.V2 * c2)
    (fun s hs => by
      show p.V1 * (rk4Step p s.C1 s.C2 s.t).1 + p.V2 * (rk4Step p s.C1 s.C2 s.t).2 = _
      rw [hstep]; exact hs)
    (nSteps p).toNat ⟨0, c1, c2⟩ rfl

/-- Witness for C6: one concrete RK4 step with the mass-conservation
parameters preserves `V1·C1 + V2·C2` starting from `(C1, C2) = (2, 3)`. -/
theorem mass_conservation_witness :
    pMass.V1 * (rk4Step pMass 2 3 0).1 + pMass.V2 * (rk4Step pMass 2 3 0).2 =
      pMass.V1 * 2 + pMass.V2 * 3 :=
  (mass_conservation pMass (by norm_num [pMass]) (by norm_num [pMass])
    rfl rfl rfl rfl 2 3).1 2 3 0

theorem rk4Step_zero (p : Params) (hL : p.L_input = 0) (hCB : p.CB = 0) (t : ℚ) :
    rk4Step p 0 0 t = (0, 0) := by
  simp [rk4Step, derivadas, hL, hCB]

/-- C7: With `L_input = 0`, `CB = 0` and zero initial state, every
sample of the trajectory is identically `(0, 0)`: the origin is a fixed
point preserved by every RK4 step. -/
theorem zero_equilibrium (p : Params) (hL : p.L_input = 0) (hCB : p.CB = 0) :
    ∀ s ∈ integrate p 0 0, s.C1 = 0 ∧ s.C2 = 0 :=
  integrateAux_invariant p (fun s => s.C1 = 0 ∧ s.C2 = 0)
    (fun s hs => by
      obtain ⟨h1, h2⟩ := hs
      constructor
      · show (rk4Step p s.C1 s.C2 s.t).1 = 0
        rw [h1, h2, rk4Step_zero p hL hCB]
      · show (rk4Step p s.C1 s.C2 s.t).2 = 0
        rw [h1, h2, rk4Step_zero p hL hCB])
    (nSteps p).toNat ⟨0, 0, 0⟩ ⟨rfl, rfl⟩

theorem nSteps_pSmall : (nSteps pSmall).toNat = 1 :=
  nSteps_toNat pSmall 1 (by norm_num [pSmall])

theorem integrateAux_one (p : Params) (s : Sample) :
    integrateAux p 1 s = [s, stepSample p s] := rfl

theorem step_pSmall_zero : stepSample pSmall ⟨0, 0, 0⟩ = ⟨1/10, 0, 0⟩ := by
  show (⟨0 + pSmall.dt, (rk4Step pSmall 0 0 0).1, (rk4Step pSmall 0 0 0).2⟩ : Sample) = _
  rw [rk4Step_zero pSmall rfl rfl]
  show (⟨0 + pSmall.dt, 0, 0⟩ : Sample) = _
  simp only [Sample.mk.injEq]
  norm_num [pSmall]

theorem integrate_pSmall_eq :
    integrate pSmall 0 0 = [⟨0, 0, 0⟩, ⟨1/10, 0, 0⟩] := by
  show integrateAux pSmall (nSteps pSmall).toNat ⟨0, 0, 0⟩ = _
  rw [nSteps_pSmall, integrateAux_one, step_pSmall_zero]

/-- Witness for C7: the second sample of a concrete zero-source,
zero-boundary run is a member of the trajectory and is zero. -/
theorem zero_equilibrium_witness :
    (Sample.mk (1/10) 0 0).C1 = 0 ∧ (Sample.mk (1/10) 0 0).C2 = 0 :=
  zero_equilibrium pSmall rfl rfl ⟨1/10, 0, 0⟩
    (by rw [integrate_pSmall_eq]
        exact List.mem_cons_of_mem _ (List.mem_singleton_self _))

/-- C8: The integration is deterministic — identical parameters and
initial state give identical trajectories — and Markovian: each sample is
`stepSample` of the immediately preceding sample only. -/
theorem deterministic_markov (p q : Params) (c1 c2 d1 d2 : ℚ) :
    (p = q → c1 = d1 → c2 = d2 → integrate p c1 c2 = integrate q d1 d2) ∧
    ∀ (i : ℕ) (h : i + 1 < (integrate p c1 c2).length)
      (h2 : i < (integrate p c1 c2).length),
      (integrate p c1 c2).get ⟨i + 1, h⟩ =
        stepSample p ((integrate p c1 c2).get ⟨i, h2⟩) := by
  constructor
  · rintro rfl rfl rfl; rfl
  · intro i h h2
    rw [integrate_get, integrate_get, Function.iterate_succ_apply']

theorem integrate_pSmall_length : (integrate pSmall 0 0).length = 2 := by
  rw [integrate_pSmall_eq]
  rfl

/-- Witness for C8 on a concrete two-sample run. -/
theorem deterministic_markov_witness :
    integrate pSmall 0 0 = integrate pSmall 0 0 ∧
    (integrate pSmall 0 0).get ⟨1, by rw [integrate_pSmall_length]; norm_num⟩ =
      stepSample pSmall ((integrate pSmall 0 0).get
        ⟨0, by rw [integrate_pSmall_length]; norm_num⟩) := by
  have h := deterministic_markov pSmall pSmall 0 0 0 0
  exact ⟨h.1 rfl rfl rfl,
    h.2 0 (by rw [integrate_pSmall_length]; norm_num)
      (by rw [integrate_pSmall_length]; norm_num)⟩
